import Mathlib

/-! Shallow embedding of the two interaction controllers of the muggled_sam demo UI:
`lib/demo_helpers/crop_ui.py` (function `run_crop_ui`) and
`lib/demo_helpers/shared_ui_layout.py` (`PromptUIControl.read_prompts`,
`PromptUIControl.load_initial_prompts`, `ReusableBaseImage.regenerate`,
`find_best_display_arrangement`).

Conventions: Python/numpy floats are modelled as `ℚ`, pixel coordinates as `ℤ`,
image sizes as `ℤ` or `ℕ`.  The overlay / constraint / button widgets live in the
`ui` package, which is not part of the excerpt; their read/clear contracts are
modelled from the specification (each such definition is marked
"Modelled from the spec").  Everything else is translated directly from the
source files. -/

/-- Numpy `np.round` (round half to even) on a rational, returning an integer. -/
def npRound (q : ℚ) : ℤ :=
  let f := ⌊q⌋
  let frac := q - f
  if frac < 1/2 then f
  else if 1/2 < frac then f + 1
  else if f % 2 = 0 then f else f + 1

/-- Numpy `np.clip(a, lo, hi)` on a scalar: `min (max a lo) hi`. -/
def npClip (a lo hi : ℤ) : ℤ := min (max a lo) hi

/-- Python `int()` truncation toward zero on a rational. -/
def pyInt (q : ℚ) : ℤ := if q < 0 then ⌈q⌉ else ⌊q⌋

/-- Python float floor-division `a // b`. -/
def pyFloorDiv (a b : ℚ) : ℚ := ⌊a / b⌋

/-! ### Crop interaction controller (`crop_ui.py`, `run_crop_ui`, lines 85-247)

The per-iteration widget reads (`zoom_olay.read()`, `zoom_slider.read()`,
`crop_olay.read()`, `window.show(...)`, `done_btn.read()`) are modelled as a
`CropFrame` of values delivered for that iteration, and a `KeyboardInterrupt`
as a distinguished event, so a run of the interaction loop is driven by a list
of `CropEvent`s. -/

/-- One loop iteration's widget readings in `run_crop_ui`:
`zoom_olay.read()` (changed flag and hover event position), `zoom_slider.read()`,
`crop_olay.read()` (changed, validity, normalized top-left/bottom-right corners),
the `window.show` break request, the enter-key press and `done_btn.read()`. -/
structure CropFrame where
  zoomChanged : Bool
  zoomXY : ℚ × ℚ
  sliderChanged : Bool
  sliderVal : ℚ
  cropChanged : Bool
  cropValid : Bool
  cropTlbr : (ℚ × ℚ) × (ℚ × ℚ)
  reqBreak : Bool
  keyEnter : Bool
  doneClicked : Bool
deriving DecidableEq

/-- An event observed by `run_crop_ui`'s loop: either a normal frame of widget
readings, or a `KeyboardInterrupt` raised during the iteration. -/
inductive CropEvent
  | interrupt
  | frame (f : CropFrame)
deriving DecidableEq

/-- The loop-carried state of `run_crop_ui`: `zoom_boundary_px` and the stored
crop coordinates `crop_x1, crop_y1, crop_x2, crop_y2` (crop_ui.py lines 127, 132-133). -/
structure CropState where
  zoomBoundary : ℤ
  x1 : ℤ
  y1 : ℤ
  x2 : ℤ
  y2 : ℤ
deriving DecidableEq

/-- Crop-coordinate update on a crop change (crop_ui.py lines 156-167):
normalized corners are multiplied by `(W, H)`, rounded (`np.round`), cast to
int, clipped to `[0, W]` and `[0, H]`, and if either resulting dimension is
below 5 pixels the crop is reset to the full image `(0, 0, W, H)`. -/
def updateCropCoords (W H : ℤ) (tlbr : (ℚ × ℚ) × (ℚ × ℚ)) : ℤ × ℤ × ℤ × ℤ :=
  let cx1 := npClip (npRound (tlbr.1.1 * (W : ℚ))) 0 W
  let cy1 := npClip (npRound (tlbr.1.2 * (H : ℚ))) 0 H
  let cx2 := npClip (npRound (tlbr.2.1 * (W : ℚ))) 0 W
  let cy2 := npClip (npRound (tlbr.2.2 * (H : ℚ))) 0 H
  if |cx2 - cx1| < 5 ∨ |cy2 - cy1| < 5 then (0, 0, W, H) else (cx1, cy1, cx2, cy2)

/-- State update performed by one normal iteration of `run_crop_ui`'s loop
(crop_ui.py lines 139-167): the zoom boundary is recomputed from the slider as
`3 + int((1.0 - zoom_factor_norm) * 200)` when the slider changed, an invalid
crop box is replaced by the full-image box `((0,0),(1,1))` (lines 150-151), and
the stored crop coordinates are recomputed via `updateCropCoords` when the crop
changed. -/
def stepCrop (W H : ℤ) (s : CropState) (f : CropFrame) : CropState :=
  let b := if f.sliderChanged then 3 + pyInt ((1 - f.sliderVal) * 200) else s.zoomBoundary
  let tlbr := if f.cropValid then f.cropTlbr else (((0 : ℚ), (0 : ℚ)), ((1 : ℚ), (1 : ℚ)))
  let c := if f.cropChanged then updateCropCoords W H tlbr else (s.x1, s.y1, s.x2, s.y2)
  ⟨b, c.1, c.2.1, c.2.2.1, c.2.2.2⟩

/-- The zoom window computation of `run_crop_ui` (crop_ui.py lines 195-198):
the rounded pixel position of the hover point is clipped to
`[b, W - b] × [b, H - b]` (with `min_zoom_xy = (b, b)` and
`max_zoom_xy = (W, H) - (b, b)`), then the window is
`(zoom_x1, zoom_y1) = cen - b` and `(zoom_x2, zoom_y2) = cen + b + 1`,
used as half-open slice bounds into the image. -/
def computeZoomWindow (W H b : ℤ) (xy : ℚ × ℚ) : ℤ × ℤ × ℤ × ℤ :=
  let cx := npClip (npRound (xy.1 * (W : ℚ))) b (W - b)
  let cy := npClip (npRound (xy.2 * (H : ℚ))) b (H - b)
  (cx - b, cy - b, cx + b + 1, cy + b + 1)

/-- The zoom window computed (for display) during one iteration of
`run_crop_ui`'s loop, using the boundary value in effect after the slider read
(crop_ui.py lines 143-146 and 192-198); `none` when the frame triggers no zoom
recomputation. -/
def frameZoomWindow (W H : ℤ) (s : CropState) (f : CropFrame) : Option (ℤ × ℤ × ℤ × ℤ) :=
  let b := if f.sliderChanged then 3 + pyInt ((1 - f.sliderVal) * 200) else s.zoomBoundary
  if f.zoomChanged || f.sliderChanged || f.cropChanged then
    some (computeZoomWindow W H b f.zoomXY)
  else none

/-- Whether a frame terminates `run_crop_ui`'s loop normally
(crop_ui.py lines 219-230: `req_break`, enter key, or Done button). -/
def CropEvent.exitsLoop : CropEvent → Bool
  | .interrupt => false
  | .frame f => f.reqBreak || f.keyEnter || f.doneClicked

/-- Initial loop state of `run_crop_ui` (crop_ui.py lines 127, 132-133):
`zoom_boundary_px = 100` and the crop initialized to the full image. -/
def initCropState (W H : ℤ) : CropState := ⟨100, 0, 0, W, H⟩

/-- The interaction loop of `run_crop_ui`: each normal frame updates the state;
a frame whose break/enter/done reading is set ends the loop, returning the
current crop as the pair of half-open intervals `((x1, x2), (y1, y2))`
(crop_ui.py lines 244-247); a `KeyboardInterrupt` is caught (lines 232-235) and
the full-image intervals are returned instead. An exhausted event list stands
for a still-running loop observed at that point and returns the current crop. -/
def runCropLoop (W H : ℤ) : CropState → List CropEvent → (ℤ × ℤ) × (ℤ × ℤ)
  | s, [] => ((s.x1, s.x2), (s.y1, s.y2))
  | _, .interrupt :: _ => ((0, W), (0, H))
  | s, .frame f :: rest =>
    let s1 := stepCrop W H s f
    if f.reqBreak || f.keyEnter || f.doneClicked then ((s1.x1, s1.x2), (s1.y1, s1.y2))
    else runCropLoop W H s1 rest

/-- `run_crop_ui` for an image of width `W` and height `H`, driven by a list of
loop events: returns the crop coordinates as `((x1, x2), (y1, y2))` slice
bounds. -/
def run_crop_ui (W H : ℤ) (events : List CropEvent) : (ℤ × ℤ) × (ℤ × ℤ) :=
  runCropLoop W H (initCropState W H) events

/-! ### Prompt interaction controller (`shared_ui_layout.py`)

The tool overlays (`HoverOverlay`, `BoxSelectOverlay`, `PointSelectOverlay`),
the `RadioConstraint` over the tool buttons and the Clear `ImmediateButton` are
defined in the `ui` package, which is outside the excerpt; their state and
read/clear/add contracts below are modelled from the specification
(spec sections 4.2, 4.3 and 5: one-shot clear-on-read `read()`, accumulating
add, full clear, radio `change_to`). -/

/-- A normalized (x, y) coordinate pair. -/
abbrev XYNorm := ℚ × ℚ

/-- The four prompt tools managed by the tool `RadioConstraint`. -/
inductive Tool
  | hover
  | box
  | fgpt
  | bgpt
deriving DecidableEq

/-- Modelled from the spec: state of a `PointSelectOverlay` (ui package, not in
the excerpt) — an ordered list of normalized points plus a changed-since-last-read
flag. -/
structure PointSelectState where
  is_changed : Bool
  points : List XYNorm
deriving DecidableEq

/-- Modelled from the spec: `PointSelectOverlay.read()` returns
`(changed, list_of_points)` and clears the changed flag (one-shot consumption). -/
def PointSelectState.read (s : PointSelectState) : (Bool × List XYNorm) × PointSelectState :=
  ((s.is_changed, s.points), ⟨false, s.points⟩)

/-- Modelled from the spec: `PointSelectOverlay.clear()` empties the stored
points; the wipe is a state change reported by the next read. -/
def PointSelectState.clear (_ : PointSelectState) : PointSelectState := ⟨true, []⟩

/-- Modelled from the spec: `PointSelectOverlay.add_points(*pts)` appends the
given points; a nonempty addition is a state change reported by the next read. -/
def PointSelectState.add_points (s : PointSelectState) (new : List XYNorm) : PointSelectState :=
  ⟨s.is_changed || !new.isEmpty, s.points ++ new⟩

/-- Modelled from the spec: state of a `BoxSelectOverlay` (ui package, not in
the excerpt) — an ordered list of completed normalized boxes plus a
changed-since-last-read flag. -/
structure BoxSelectState where
  is_changed : Bool
  boxes : List (XYNorm × XYNorm)
deriving DecidableEq

/-- Modelled from the spec: `BoxSelectOverlay.read()` returns
`(changed, list_of_boxes)` and clears the changed flag. -/
def BoxSelectState.read (s : BoxSelectState) : (Bool × List (XYNorm × XYNorm)) × BoxSelectState :=
  ((s.is_changed, s.boxes), ⟨false, s.boxes⟩)

/-- Modelled from the spec: `BoxSelectOverlay.clear()` empties the stored boxes. -/
def BoxSelectState.clear (_ : BoxSelectState) : BoxSelectState := ⟨true, []⟩

/-- Modelled from the spec: `BoxSelectOverlay.add_boxes(*boxes)` appends the
given boxes. -/
def BoxSelectState.add_boxes (s : BoxSelectState) (new : List (XYNorm × XYNorm)) : BoxSelectState :=
  ⟨s.is_changed || !new.isEmpty, s.boxes ++ new⟩

/-- Modelled from the spec: the event payload of a `HoverOverlay` read — the
last normalized pointer position and the in-region flag. -/
structure HoverEvent where
  xy_norm : XYNorm
  is_in_region : Bool
deriving DecidableEq

/-- Modelled from the spec: state of a `HoverOverlay` (ui package, not in the
excerpt) — changed flag, one-frame click-edge flag, and the last event. -/
structure HoverState where
  is_changed : Bool
  is_clicked : Bool
  event : HoverEvent
deriving DecidableEq

/-- Modelled from the spec: `HoverOverlay.read()` returns
`(changed, is_clicked, event)` and clears both the changed and click-edge
flags. -/
def HoverState.read (s : HoverState) : (Bool × Bool × HoverEvent) × HoverState :=
  ((s.is_changed, s.is_clicked, s.event), ⟨false, false, s.event⟩)

/-- Modelled from the spec: state of the tool `RadioConstraint` (ui package,
not in the excerpt) — the currently selected tool and a
changed-since-last-read flag. -/
structure ToolConstraintState where
  is_changed : Bool
  selected : Tool
deriving DecidableEq

/-- Modelled from the spec: `RadioConstraint.read()` returns
`(changed, selected_index, selected_item)` and clears the changed flag; the
index is determined by the item so only the item is modelled. -/
def ToolConstraintState.read (s : ToolConstraintState) : (Bool × Tool) × ToolConstraintState :=
  ((s.is_changed, s.selected), ⟨false, s.selected⟩)

/-- Modelled from the spec: `RadioConstraint.change_to(item)` selects the given
item; selecting a different item is a change reported by the next read. -/
def ToolConstraintState.change_to (s : ToolConstraintState) (t : Tool) : ToolConstraintState :=
  ⟨if s.selected = t then s.is_changed else true, t⟩

/-- The mutable state read and written by `PromptUIControl.read_prompts`: the
tool constraint, the Clear button's pending one-shot press, and the four tool
overlays. -/
structure PromptUIState where
  tool : ToolConstraintState
  clearPending : Bool
  boxOlay : BoxSelectState
  fgptOlay : PointSelectState
  bgptOlay : PointSelectState
  hoverOlay : HoverState
deriving DecidableEq

/-- The return value of `PromptUIControl.read_prompts`
(`need_prompt_reencoding, box_tlbr_list, fg_xy_list, bg_xy_list`). -/
structure ReadPromptsResult where
  need_reencode : Bool
  boxes : List (XYNorm × XYNorm)
  fg : List XYNorm
  bg : List XYNorm
deriving DecidableEq

/-- `PromptUIControl.read_prompts` (shared_ui_layout.py lines 379-424):
read the tool constraint; read the Clear button and, if pressed, clear the
box/FG/BG overlays; read the three prompt overlays; if the Hover tool is
selected, read Hover, report its in-region position as a hover point, and on a
click switch the constraint to the FG-point tool and add the hover point to
the FG overlay; fold hover points into the reported FG list; if the FG overlay
changed and the combined prompt count is zero, change the constraint back to
Hover; return `need_prompt_reencode` (any overlay change, tool change, or
clear press) with the three prompt lists.  Returns the result paired with the
post-read state. -/
def read_prompts (s : PromptUIState) : ReadPromptsResult × PromptUIState :=
  let is_tool_changed := s.tool.is_changed
  let selected_tool := s.tool.selected
  let tool1 : ToolConstraintState := ⟨false, selected_tool⟩
  let clear_prompts := s.clearPending
  let box0 := if clear_prompts then s.boxOlay.clear else s.boxOlay
  let fg0 := if clear_prompts then s.fgptOlay.clear else s.fgptOlay
  let bg0 := if clear_prompts then s.bgptOlay.clear else s.bgptOlay
  let box_prompt_changed := box0.is_changed
  let box_tlbr_norm_list := box0.boxes
  let fg_prompt_changed := fg0.is_changed
  let fg_xy_norm_list0 := fg0.points
  let bg_prompt_changed := bg0.is_changed
  let bg_xy_norm_list := bg0.points
  let box1 : BoxSelectState := ⟨false, box_tlbr_norm_list⟩
  let fg1 : PointSelectState := ⟨false, fg_xy_norm_list0⟩
  let bg1 : PointSelectState := ⟨false, bg_xy_norm_list⟩
  let hoverRes :=
    if selected_tool = Tool.hover then
      let hover_prompt_changed := s.hoverOlay.is_changed
      let hover_is_clicked := s.hoverOlay.is_clicked
      let hover_xy_event := s.hoverOlay.event
      let hover1 : HoverState := ⟨false, false, hover_xy_event⟩
      let hover_xy_norm_list := if hover_xy_event.is_in_region then [hover_xy_event.xy_norm] else []
      let tool2 := if hover_is_clicked then tool1.change_to Tool.fgpt else tool1
      let fg2 := if hover_is_clicked then fg1.add_points [hover_xy_event.xy_norm] else fg1
      (hover_prompt_changed, hover_xy_norm_list, hover1, tool2, fg2)
    else (false, ([] : List XYNorm), s.hoverOlay, tool1, fg1)
  let hover_prompt_changed := hoverRes.1
  let hover_xy_norm_list := hoverRes.2.1
  let hover1 := hoverRes.2.2.1
  let tool2 := hoverRes.2.2.2.1
  let fg2 := hoverRes.2.2.2.2
  let fg_xy_norm_list := fg_xy_norm_list0 ++ hover_xy_norm_list
  let no_prompts :=
    decide (fg_xy_norm_list.length + box_tlbr_norm_list.length + bg_xy_norm_list.length = 0)
  let tool3 := if fg_prompt_changed && no_prompts then tool2.change_to Tool.hover else tool2
  let prompt_changed :=
    box_prompt_changed || fg_prompt_changed || bg_prompt_changed || hover_prompt_changed
  let need_prompt_reencode := prompt_changed || is_tool_changed || clear_prompts
  (⟨need_prompt_reencode, box_tlbr_norm_list, fg_xy_norm_list, bg_xy_norm_list⟩,
   ⟨tool3, false, box1, fg2, bg1, hover1⟩)

/-- The initial-prompts dictionary of `PromptUIControl.load_initial_prompts`,
with the `.get(key, [])` defaults already applied. -/
structure PromptsDict where
  boxes : List (XYNorm × XYNorm)
  fg_points : List XYNorm
  bg_points : List XYNorm
deriving DecidableEq

/-- The argument of `load_initial_prompts`: a Python dict, or any value that is
not a dict (e.g. `None`). -/
inductive PyArg
  | nondict
  | dict (d : PromptsDict)
deriving DecidableEq

/-- `PromptUIControl.load_initial_prompts` (shared_ui_layout.py lines 343-361):
bail immediately if the argument is not a dict; otherwise exhaust the Clear
button (consume any pending press) and append the listed boxes / FG points /
BG points to the corresponding overlays. -/
def load_initial_prompts (s : PromptUIState) : PyArg → PromptUIState
  | .nondict => s
  | .dict d =>
    { s with
      clearPending := false
      boxOlay := s.boxOlay.add_boxes d.boxes
      fgptOlay := s.fgptOlay.add_points d.fg_points
      bgptOlay := s.bgptOlay.add_points d.bg_points }

/-! ### `ReusableBaseImage` (shared_ui_layout.py lines 429-457)

Images are modelled by their height/width; `cv2.resize` is modelled as an
opaque operation characterized by the size of its output. -/

/-- State of a `ReusableBaseImage`: the full image's size, the cached display
image's size, and the stored previous size `_prev_h`/`_prev_w`. -/
structure ReusableBaseImage where
  full_h : ℕ
  full_w : ℕ
  disp_h : ℕ
  disp_w : ℕ
  prev_h : ℕ
  prev_w : ℕ
deriving DecidableEq

/-- `ReusableBaseImage.__init__` (lines 441-446): the display copy and the
previous size are initialized from the full image. -/
def ReusableBaseImage.init (full_hw : ℕ × ℕ) : ReusableBaseImage :=
  ⟨full_hw.1, full_hw.2, full_hw.1, full_hw.2, full_hw.1, full_hw.2⟩

/-- `ReusableBaseImage.regenerate` (lines 448-457): if the requested size
differs from `_prev_h`/`_prev_w`, the display image is recomputed by resizing
the full image to the requested size.  The source then assigns
`prev_disp_h, prev_disp_w = self._disp_img.shape[0:2]` — plain local
variables, so `_prev_h`/`_prev_w` are never updated.  Returns the new state,
the size of the returned display image, and whether a resize was performed. -/
def ReusableBaseImage.regenerate (s : ReusableBaseImage) (new_display_hw : ℕ × ℕ) :
    ReusableBaseImage × (ℕ × ℕ) × Bool :=
  if new_display_hw.1 ≠ s.prev_h ∨ new_display_hw.2 ≠ s.prev_w then
    let s1 := { s with disp_h := new_display_hw.1, disp_w := new_display_hw.2 }
    (s1, (s1.disp_h, s1.disp_w), true)
  else (s, (s.disp_h, s.disp_w), false)

/-! ### `find_best_display_arrangement` (shared_ui_layout.py lines 466-508)

The function takes `min` of a Python list of `(float, str, str)` tuples, so the
comparison is Python's lexicographic tuple order, with strings compared by code
point.  `charListLt` / `strLt` implement Python string `<`; `lexLt` implements
tuple comparison; `pyMin` implements `min(iterable)` (keeping the earlier
element when neither compares below the other). -/

/-- Python-style lexicographic `<` on lists of characters (compared by code
point). -/
def charListLt : List Char → List Char → Bool
  | [], [] => false
  | [], _ :: _ => true
  | _ :: _, [] => false
  | a :: as, b :: bs =>
    decide (a.toNat < b.toNat) || (decide (a.toNat = b.toNat) && charListLt as bs)

/-- Python string `<`. -/
def strLt (a b : String) : Bool := charListLt a.data b.data

/-- Python tuple comparison, first component then (on neither-below) the rest. -/
def lexLt {α β : Type} (ltA : α → α → Bool) (ltB : β → β → Bool) (x y : α × β) : Bool :=
  ltA x.1 y.1 || (!ltA x.1 y.1 && !ltA y.1 x.1 && ltB x.2 y.2)

/-- Boolean `<` on rationals (Python float comparison, exact here). -/
def ratLtB (a b : ℚ) : Bool := decide (a < b)

/-- Python `<` on `(str, str)` pairs. -/
def strPairLt (a b : String × String) : Bool := lexLt strLt strLt a b

/-- Python `<` on `(float, str, str)` tuples, as compared by `min` in
`find_best_display_arrangement`. -/
def pyTripleLt (a b : ℚ × String × String) : Bool := lexLt ratLtB strPairLt a b

/-- Python `min(iterable)`: start from the first element, replace the current
best only when a later element compares strictly below it. -/
def pyMin {α : Type} (lt : α → α → Bool) : α → List α → α
  | best, [] => best
  | best, x :: xs => pyMin lt (if lt x best then x else best) xs

/-- The `configurations_list` of `find_best_display_arrangement`
(shared_ui_layout.py lines 493-500): six `(side, order, add_h, add_w)`
entries built from `tallmask_w = mask_w * (img_h / mask_h)` and
`widemask_h = mask_h * (img_w / mask_w)`.  Shapes are `(h, w)` pairs. -/
def configurations_list (image_shape mask_shape : ℚ × ℚ) (num_masks : ℚ) :
    List (String × String × ℚ × ℚ) :=
  let tallmask_w := mask_shape.2 * (image_shape.1 / mask_shape.1)
  let widemask_h := mask_shape.1 * (image_shape.2 / mask_shape.2)
  [("right", "vertical", 0, pyFloorDiv tallmask_w num_masks),
   ("right", "horizontal", 0, image_shape.2 + tallmask_w * num_masks),
   ("right", "grid", 0, tallmask_w),
   ("top", "vertical", widemask_h * num_masks, 0),
   ("top", "horizontal", pyFloorDiv widemask_h num_masks, 0),
   ("top", "grid", widemask_h, 0)]

/-- The `ardelta_side_order_list` of `find_best_display_arrangement`
(lines 503-506): for each configuration, the tuple
`(|target_ar - (img_w + add_w) / (img_h + add_h)|, side, order)`. -/
def ardeltaList (image_shape mask_shape : ℚ × ℚ) (target_ar num_masks : ℚ) :
    List (ℚ × String × String) :=
  (configurations_list image_shape mask_shape num_masks).map
    (fun c => (|target_ar - (image_shape.2 + c.2.2.2) / (image_shape.1 + c.2.2.1)|, c.1, c.2.1))

/-- `find_best_display_arrangement` (shared_ui_layout.py lines 466-508):
`_, best_side, best_order = min(ardelta_side_order_list)` with Python's `min`
over `(float, str, str)` tuples; returns `(best_side, best_order)`.  The
source defaults are `target_ar = 2.0`, `num_masks = 4`. -/
def find_best_display_arrangement (image_shape mask_shape : ℚ × ℚ)
    (target_ar num_masks : ℚ) : String × String :=
  let l := ardeltaList image_shape mask_shape target_ar num_masks
  let best := pyMin pyTripleLt (l.headD (0, "right", "vertical")) l.tail
  (best.2.1, best.2.2)

/-! ### Concrete inputs used by witnesses and counterexamples -/

/-- A mid-drag frame: the crop box reports a change with a partial box and no
terminating input. -/
def midDragFrame : CropFrame :=
  ⟨false, (0, 0), false, 1/2, true, true, ((1/10, 1/10), (3/20, 3/20)), false, false, false⟩

/-- A crop-change frame with a valid box at `((1/4, 1/4), (3/4, 3/4))`. -/
def cropChangeFrame : CropFrame :=
  ⟨false, (0, 0), false, 0, true, true, ((1/4, 1/4), (3/4, 3/4)), false, false, false⟩

/-- A frame whose crop-box read reports `is_valid = false` together with a
change. -/
def invalidBoxFrame : CropFrame :=
  ⟨false, (0, 0), false, 0, true, false, ((2/5, 2/5), (2/5, 2/5)), false, false, false⟩

/-- A frame where only the hover point changed, at the top-left corner. -/
def zoomFrame : CropFrame :=
  ⟨true, (0, 0), false, 0, false, true, ((0, 0), (1, 1)), false, false, false⟩

/-- Prompt state with the Hover tool selected and an in-region click at
normalized `(3/10, 2/5)`. -/
def hoverClickState : PromptUIState :=
  ⟨⟨false, Tool.hover⟩, false, ⟨false, []⟩, ⟨false, []⟩, ⟨false, []⟩,
   ⟨true, true, ⟨(3/10, 2/5), true⟩⟩⟩

/-- Prompt state just after the last FG point was removed: the FG overlay
reports a change with an empty list and no other prompts exist. -/
def fgRemovedState : PromptUIState :=
  ⟨⟨false, Tool.fgpt⟩, false, ⟨false, []⟩, ⟨true, []⟩, ⟨false, []⟩,
   ⟨false, false, ⟨(0, 0), false⟩⟩⟩

/-! ### Order lemmas for the Python tuple comparison -/

theorem charListLt_irrefl (as : List Char) : charListLt as as = false := by
  induction as with
  | nil => rfl
  | cons a as ih => simp [charListLt, ih]

theorem charListLt_trans :
    ∀ as bs cs, charListLt as bs = true → charListLt bs cs = true →
      charListLt as cs = true := by
  intro as
  induction as with
  | nil =>
    intro bs cs h1 h2
    cases bs with
    | nil => simp [charListLt] at h1
    | cons b bs =>
      cases cs with
      | nil => simp [charListLt] at h2
      | cons c cs => simp [charListLt]
  | cons a as ih =>
    intro bs cs h1 h2
    cases bs with
    | nil => simp [charListLt] at h1
    | cons b bs =>
      cases cs with
      | nil => simp [charListLt] at h2
      | cons c cs =>
        simp only [charListLt, Bool.or_eq_true, Bool.and_eq_true, decide_eq_true_eq] at h1 h2 ⊢
        rcases h1 with h1 | ⟨h1e, h1r⟩ <;> rcases h2 with h2 | ⟨h2e, h2r⟩
        · exact Or.inl (h1.trans h2)
        · exact Or.inl (h2e ▸ h1)
        · exact Or.inl (h1e ▸ h2)
        · exact Or.inr ⟨h1e.trans h2e, ih bs cs h1r h2r⟩

theorem charListLt_neg_trans :
    ∀ as bs cs, charListLt bs as = false → charListLt cs bs = false →
      charListLt cs as = false := by
  intro as
  induction as with
  | nil =>
    intro bs cs h1 h2
    cases cs with
    | nil => rfl
    | cons c cs =>
      cases bs with
      | nil => rfl
      | cons b bs => rfl
  | cons a as ih =>
    intro bs cs h1 h2
    cases bs with
    | nil => simp [charListLt] at h1
    | cons b bs =>
      cases cs with
      | nil => simp [charListLt] at h2
      | cons c cs =>
        simp only [charListLt, Bool.or_eq_false_iff, Bool.and_eq_false_iff,
          decide_eq_false_iff_not, Bool.not_eq_true] at h1 h2 ⊢
        obtain ⟨h1a, h1b⟩ := h1
        obtain ⟨h2a, h2b⟩ := h2
        refine ⟨by omega, ?_⟩
        rcases h1b with h1b | h1b
        · left; omega
        · rcases h2b with h2b | h2b
          · left; omega
          · right; exact ih bs cs h1b h2b

theorem strLt_irrefl (a : String) : strLt a a = false := charListLt_irrefl a.data

theorem strLt_trans (a b c : String) :
    strLt a b = true → strLt b c = true → strLt a c = true :=
  charListLt_trans a.data b.data c.data

theorem strLt_neg_trans (a b c : String) :
    strLt b a = false → strLt c b = false → strLt c a = false :=
  charListLt_neg_trans a.data b.data c.data

theorem lexLt_eq_true_iff {α β : Type} (ltA : α → α → Bool) (ltB : β → β → Bool)
    (x y : α × β) :
    lexLt ltA ltB x y = true ↔
      (ltA x.1 y.1 = true ∨
        (ltA x.1 y.1 = false ∧ ltA y.1 x.1 = false ∧ ltB x.2 y.2 = true)) := by
  cases hxy : ltA x.1 y.1 <;> cases hyx : ltA y.1 x.1 <;> cases hb : ltB x.2 y.2 <;>
    simp [lexLt, hxy, hyx, hb]

theorem lexLt_eq_false_iff {α β : Type} (ltA : α → α → Bool) (ltB : β → β → Bool)
    (x y : α × β) :
    lexLt ltA ltB x y = false ↔
      (ltA x.1 y.1 = false ∧ (ltA y.1 x.1 = true ∨ ltB x.2 y.2 = false)) := by
  cases hxy : ltA x.1 y.1 <;> cases hyx : ltA y.1 x.1 <;> cases hb : ltB x.2 y.2 <;>
    simp [lexLt, hxy, hyx, hb]

theorem lexLt_irrefl {α β : Type} (ltA : α → α → Bool) (ltB : β → β → Bool)
    (hA : ∀ x, ltA x x = false) (hB : ∀ x, ltB x x = false) (p : α × β) :
    lexLt ltA ltB p p = false := by
  simp [lexLt, hA, hB]

theorem lexLt_trans {α β : Type} (ltA : α → α → Bool) (ltB : β → β → Bool)
    (hAt : ∀ x y z, ltA x y = true → ltA y z = true → ltA x z = true)
    (hAnt : ∀ x y z, ltA y x = false → ltA z y = false → ltA z x = false)
    (hBt : ∀ x y z, ltB x y = true → ltB y z = true → ltB x z = true)
    (x y z : α × β) :
    lexLt ltA ltB x y = true → lexLt ltA ltB y z = true → lexLt ltA ltB x z = true := by
  rw [lexLt_eq_true_iff, lexLt_eq_true_iff, lexLt_eq_true_iff]
  rintro (h1 | ⟨h1a, h1b, h1c⟩) (h2 | ⟨h2a, h2b, h2c⟩)
  · exact Or.inl (hAt _ _ _ h1 h2)
  · left
    cases hxz : ltA x.1 z.1
    · have hc := hAnt y.1 z.1 x.1 h2b hxz
      rw [hc] at h1; exact absurd h1 (by simp)
    · rfl
  · left
    cases hxz : ltA x.1 z.1
    · have hc := hAnt z.1 x.1 y.1 hxz h1b
      rw [hc] at h2; exact absurd h2 (by simp)
    · rfl
  · right
    exact ⟨hAnt z.1 y.1 x.1 h2a h1a, hAnt x.1 y.1 z.1 h1b h2b, hBt _ _ _ h1c h2c⟩

theorem lexLt_neg_trans {α β : Type} (ltA : α → α → Bool) (ltB : β → β → Bool)
    (hAnt : ∀ x y z, ltA y x = false → ltA z y = false → ltA z x = false)
    (hBnt : ∀ x y z, ltB y x = false → ltB z y = false → ltB z x = false)
    (x y z : α × β) :
    lexLt ltA ltB y x = false → lexLt ltA ltB z y = false → lexLt ltA ltB z x = false := by
  rw [lexLt_eq_false_iff, lexLt_eq_false_iff, lexLt_eq_false_iff]
  rintro ⟨h1a, h1b⟩ ⟨h2a, h2b⟩
  refine ⟨hAnt x.1 y.1 z.1 h1a h2a, ?_⟩
  rcases h1b with h1b | h1b
  · left
    cases hxz : ltA x.1 z.1
    · have hc := hAnt y.1 z.1 x.1 h2a hxz
      rw [hc] at h1b; exact absurd h1b (by simp)
    · rfl
  · rcases h2b with h2b | h2b
    · left
      cases hxz : ltA x.1 z.1
      · have hc := hAnt z.1 x.1 y.1 hxz h1a
        rw [hc] at h2b; exact absurd h2b (by simp)
      · rfl
    · exact Or.inr (hBnt x.2 y.2 z.2 h1b h2b)

theorem ratLtB_irrefl (a : ℚ) : ratLtB a a = false := by simp [ratLtB]

theorem ratLtB_trans (a b c : ℚ) :
    ratLtB a b = true → ratLtB b c = true → ratLtB a c = true := by
  simp only [ratLtB, decide_eq_true_eq]
  exact lt_trans

theorem ratLtB_neg_trans (a b c : ℚ) :
    ratLtB b a = false → ratLtB c b = false → ratLtB c a = false := by
  simp only [ratLtB, decide_eq_false_iff_not, not_lt]
  exact le_trans

theorem strPairLt_irrefl (p : String × String) : strPairLt p p = false :=
  lexLt_irrefl strLt strLt strLt_irrefl strLt_irrefl p

theorem strPairLt_trans (x y z : String × String) :
    strPairLt x y = true → strPairLt y z = true → strPairLt x z = true :=
  lexLt_trans strLt strLt strLt_trans strLt_neg_trans strLt_trans x y z

theorem strPairLt_neg_trans (x y z : String × String) :
    strPairLt y x = false → strPairLt z y = false → strPairLt z x = false :=
  lexLt_neg_trans strLt strLt strLt_neg_trans strLt_neg_trans x y z

theorem pyTripleLt_irrefl (p : ℚ × String × String) : pyTripleLt p p = false :=
  lexLt_irrefl ratLtB strPairLt ratLtB_irrefl strPairLt_irrefl p

theorem pyTripleLt_trans (x y z : ℚ × String × String) :
    pyTripleLt x y = true → pyTripleLt y z = true → pyTripleLt x z = true :=
  lexLt_trans ratLtB strPairLt ratLtB_trans ratLtB_neg_trans strPairLt_trans x y z

theorem pyTripleLt_neg_trans (x y z : ℚ × String × String) :
    pyTripleLt y x = false → pyTripleLt z y = false → pyTripleLt z x = false :=
  lexLt_neg_trans ratLtB strPairLt ratLtB_neg_trans strPairLt_neg_trans x y z

theorem pyMin_mem {α : Type} (lt : α → α → Bool) (l : List α) :
    ∀ a, pyMin lt a l ∈ a :: l := by
  induction l with
  | nil => intro a; simp [pyMin]
  | cons x xs ih =>
    intro a
    by_cases hxa : lt x a = true
    · have e : pyMin lt a (x :: xs) = pyMin lt x xs := by simp [pyMin, hxa]
      rw [e]
      rcases List.mem_cons.mp (ih x) with h1 | h1
      · simp [h1]
      · simp [List.mem_cons, h1]
    · have e : pyMin lt a (x :: xs) = pyMin lt a xs := by simp [pyMin, hxa]
      rw [e]
      rcases List.mem_cons.mp (ih a) with h1 | h1
      · simp [h1]
      · simp [List.mem_cons, h1]

theorem pyMin_not_lt {α : Type} (lt : α → α → Bool)
    (hirr : ∀ x, lt x x = false)
    (htr : ∀ x y z, lt x y = true → lt y z = true → lt x z = true)
    (hnt : ∀ x y z, lt y x = false → lt z y = false → lt z x = false)
    (l : List α) :
    ∀ a y, y ∈ a :: l → lt y (pyMin lt a l) = false := by
  induction l with
  | nil =>
    intro a y hy
    rw [List.mem_singleton] at hy
    subst hy
    simpa [pyMin] using hirr y
  | cons x xs ih =>
    intro a y hy
    by_cases hxa : lt x a = true
    · have e : pyMin lt a (x :: xs) = pyMin lt x xs := by simp [pyMin, hxa]
      rw [e]
      rcases List.mem_cons.mp hy with h1 | h1
      · rw [h1]
        cases hc : lt a (pyMin lt x xs)
        · rfl
        · have hx := ih x x (List.mem_cons_self x xs)
          have ht := htr x a (pyMin lt x xs) hxa hc
          rw [ht] at hx
          exact absurd hx (by simp)
      · exact ih x y h1
    · have hxa2 : lt x a = false := by
        cases hv : lt x a
        · rfl
        · exact absurd hv hxa
      have e : pyMin lt a (x :: xs) = pyMin lt a xs := by simp [pyMin, hxa2]
      rw [e]
      rcases List.mem_cons.mp hy with h1 | h1
      · rw [h1]
        exact ih a a (List.mem_cons_self a xs)
      · rcases List.mem_cons.mp h1 with h2 | h2
        · rw [h2]
          have ha := ih a a (List.mem_cons_self a xs)
          exact hnt (pyMin lt a xs) a x ha hxa2
        · exact ih a y (List.mem_cons.mpr (Or.inr h2))

theorem find_best_display_arrangement_min (image_shape mask_shape : ℚ × ℚ)
    (target_ar num_masks : ℚ) :
    ((ardeltaList image_shape mask_shape target_ar num_masks).map (fun c => c.2) =
      [("right", "vertical"), ("right", "horizontal"), ("right", "grid"),
       ("top", "vertical"), ("top", "horizontal"), ("top", "grid")])
    ∧ ∃ d : ℚ,
        (d, find_best_display_arrangement image_shape mask_shape target_ar num_masks) ∈
          ardeltaList image_shape mask_shape target_ar num_masks
        ∧ ∀ x ∈ ardeltaList image_shape mask_shape target_ar num_masks,
            d ≤ x.1 ∧
            (x.1 = d →
              strPairLt x.2
                (find_best_display_arrangement image_shape mask_shape target_ar num_masks)
                = false) := by
  constructor
  · rfl
  · set l := ardeltaList image_shape mask_shape target_ar num_masks with hl
    have hcons : l.headD (0, "right", "vertical") :: l.tail = l := by
      rw [hl]
      rfl
    set r := pyMin pyTripleLt (l.headD (0, "right", "vertical")) l.tail with hr
    have hfb : find_best_display_arrangement image_shape mask_shape target_ar num_masks
        = (r.2.1, r.2.2) := rfl
    have hmem : r ∈ l := by
      rw [← hcons]
      exact pyMin_mem pyTripleLt l.tail _
    refine ⟨r.1, ?_, ?_⟩
    · rw [hfb]
      have he : ((r.1, r.2.1, r.2.2) : ℚ × String × String) = r := rfl
      rw [he]
      exact hmem
    · intro x hx
      have hnlt : pyTripleLt x r = false := by
        rw [hr]
        refine pyMin_not_lt pyTripleLt pyTripleLt_irrefl pyTripleLt_trans pyTripleLt_neg_trans
          l.tail _ x ?_
        rw [hcons]
        exact hx
      rw [pyTripleLt, lexLt_eq_false_iff] at hnlt
      obtain ⟨h1, h2⟩ := hnlt
      simp only [ratLtB, decide_eq_false_iff_not, decide_eq_true_eq] at h1 h2
      constructor
      · exact le_of_not_lt h1
      · intro heq
        rcases h2 with h2 | h2
        · rw [heq] at h2
          exact absurd h2 (lt_irrefl _)
        · rw [hfb]
          have he2 : ((r.2.1, r.2.2) : String × String) = r.2 := rfl
          rw [he2]
          exact h2

theorem find_best_display_arrangement_tiebreak_cx :
    ardeltaList (8, 11) (2, 2) 2 4 =
      [(3/8, ("right", "vertical")), (19/4, ("right", "horizontal")), (3/8, ("right", "grid")),
       (93/52, ("top", "vertical")), (9/10, ("top", "horizontal")), (27/19, ("top", "grid"))]
    ∧ find_best_display_arrangement (8, 11) (2, 2) 2 4 = ("right", "grid")
    ∧ ("right", "grid") ≠ ("right", "vertical") := by
  refine ⟨by with_unfolding_all rfl, by with_unfolding_all rfl, by decide⟩

/-! ### Theorems about `run_crop_ui` -/

theorem npRound_intCast (n : ℤ) : npRound ((n : ℤ) : ℚ) = n := by
  unfold npRound
  simp only [Int.floor_intCast, sub_self]
  norm_num

theorem runCropLoop_interrupt (W H : ℤ) (post : List CropEvent) :
    ∀ (pre : List CropEvent) (s : CropState), (∀ e ∈ pre, e.exitsLoop = false) →
      runCropLoop W H s (pre ++ CropEvent.interrupt :: post) = ((0, W), (0, H)) := by
  intro pre
  induction pre with
  | nil => intro s _; rfl
  | cons e rest ih =>
    intro s h
    cases e with
    | interrupt => rfl
    | frame f =>
      have hf : (CropEvent.frame f).exitsLoop = false := h _ (List.mem_cons_self _ _)
      rw [CropEvent.exitsLoop] at hf
      rcases Bool.or_eq_false_iff.mp hf with ⟨h12, h3⟩
      rcases Bool.or_eq_false_iff.mp h12 with ⟨h1, h2⟩
      rw [List.cons_append]
      simp only [runCropLoop, h1, h2, h3, Bool.or_self, Bool.false_eq_true, if_false]
      exact ih _ (fun e2 he2 => h e2 (List.mem_cons_of_mem _ he2))

/-- Claim C2: if `run_crop_ui`'s interaction loop is interrupted by a cancel
signal (KeyboardInterrupt) at any point — after any prefix of non-terminating
frames, including mid-drag with an uncommitted crop box — the function returns
the full-image half-open intervals `[0, W)` on x and `[0, H)` on y, never a
partial crop box. -/
theorem run_crop_ui_cancel_returns_full_image (W H : ℤ) (pre post : List CropEvent)
    (h : ∀ e ∈ pre, e.exitsLoop = false) :
    run_crop_ui W H (pre ++ CropEvent.interrupt :: post) = ((0, W), (0, H)) :=
  runCropLoop_interrupt W H post pre (initCropState W H) h

/-- Witness for C2: a concrete mid-drag frame followed by an interrupt on a
640x480 image yields the full-image intervals. -/
theorem run_crop_ui_cancel_witness :
    (∀ e ∈ [CropEvent.frame midDragFrame], e.exitsLoop = false)
    ∧ run_crop_ui 640 480 ([CropEvent.frame midDragFrame] ++ CropEvent.interrupt :: []) =
        ((0, 640), (0, 480)) :=
  ⟨by decide,
   run_crop_ui_cancel_returns_full_image 640 480 [CropEvent.frame midDragFrame] [] (by decide)⟩

/-- Claim C5: whenever the crop box reports a change, the (substituted)
normalized corners are converted to pixels by rounding against the image
width/height, clipped to `[0, W]` and `[0, H]`, and if the resulting box has
either dimension below 5 pixels the stored crop resets to `(0, 0, W, H)`. -/
theorem run_crop_ui_crop_update (W H : ℤ) (s : CropState) (f : CropFrame)
    (hch : f.cropChanged = true) :
    ((stepCrop W H s f).x1, (stepCrop W H s f).y1, (stepCrop W H s f).x2, (stepCrop W H s f).y2) =
      (let t := if f.cropValid then f.cropTlbr else (((0 : ℚ), (0 : ℚ)), ((1 : ℚ), (1 : ℚ)))
       let cx1 := npClip (npRound (t.1.1 * (W : ℚ))) 0 W
       let cy1 := npClip (npRound (t.1.2 * (H : ℚ))) 0 H
       let cx2 := npClip (npRound (t.2.1 * (W : ℚ))) 0 W
       let cy2 := npClip (npRound (t.2.2 * (H : ℚ))) 0 H
       if |cx2 - cx1| < 5 ∨ |cy2 - cy1| < 5 then (0, 0, W, H) else (cx1, cy1, cx2, cy2)) := by
  simp only [stepCrop, updateCropCoords, hch, if_true]

/-- Witness for C5: a crop change to `((1/4, 1/4), (3/4, 3/4))` on a 100x80
image stores the crop `(25, 20, 75, 60)`. -/
theorem run_crop_ui_crop_update_witness :
    cropChangeFrame.cropChanged = true
    ∧ ((stepCrop 100 80 (initCropState 100 80) cropChangeFrame).x1,
       (stepCrop 100 80 (initCropState 100 80) cropChangeFrame).y1,
       (stepCrop 100 80 (initCropState 100 80) cropChangeFrame).x2,
       (stepCrop 100 80 (initCropState 100 80) cropChangeFrame).y2) = (25, 20, 75, 60) := by
  refine ⟨rfl, ?_⟩
  have h := run_crop_ui_crop_update 100 80 (initCropState 100 80) cropChangeFrame rfl
  rw [h]
  with_unfolding_all rfl

/-- Claim C6: in any frame whose crop-box read reports `is_valid = false`, the
full-image normalized box `((0, 0), (1, 1))` is substituted before any
downstream use — the state update is identical to one where the overlay had
reported the full-image box — and consequently a crop change in such a frame
stores the full-image pixel crop `(0, 0, W, H)`. -/
theorem run_crop_ui_invalid_box_substitution (W H : ℤ) (s : CropState) (f : CropFrame)
    (hv : f.cropValid = false) :
    stepCrop W H s f =
      stepCrop W H s
        { f with cropValid := true, cropTlbr := (((0 : ℚ), (0 : ℚ)), ((1 : ℚ), (1 : ℚ))) }
    ∧ (f.cropChanged = true → 5 ≤ W → 5 ≤ H →
        (stepCrop W H s f).x1 = 0 ∧ (stepCrop W H s f).y1 = 0
        ∧ (stepCrop W H s f).x2 = W ∧ (stepCrop W H s f).y2 = H) := by
  constructor
  · simp [stepCrop, hv]
  · intro hch hW hH
    have h0W : npRound ((0 : ℚ) * (W : ℚ)) = 0 := by
      rw [zero_mul, show ((0 : ℚ)) = ((0 : ℤ) : ℚ) by norm_num, npRound_intCast]
    have h0H : npRound ((0 : ℚ) * (H : ℚ)) = 0 := by
      rw [zero_mul, show ((0 : ℚ)) = ((0 : ℤ) : ℚ) by norm_num, npRound_intCast]
    have h1W : npRound ((1 : ℚ) * (W : ℚ)) = W := by rw [one_mul, npRound_intCast]
    have h1H : npRound ((1 : ℚ) * (H : ℚ)) = H := by rw [one_mul, npRound_intCast]
    have hup : updateCropCoords W H (((0 : ℚ), (0 : ℚ)), ((1 : ℚ), (1 : ℚ))) = (0, 0, W, H) := by
      simp only [updateCropCoords, npClip, h0W, h0H, h1W, h1H]
      have e1 : min (max (0 : ℤ) 0) W = 0 := by omega
      have e2 : min (max (0 : ℤ) 0) H = 0 := by omega
      have e3 : min (max W 0) W = W := by omega
      have e4 : min (max H 0) H = H := by omega
      rw [e1, e2, e3, e4, if_neg]
      rw [sub_zero, sub_zero, abs_of_nonneg (by omega : (0 : ℤ) ≤ W),
        abs_of_nonneg (by omega : (0 : ℤ) ≤ H)]
      omega
    simp [stepCrop, hv, hch, hup, -Prod.mk_zero_zero, -Prod.mk_one_one]

/-- Witness for C6: an invalid crop-box read with a change on a 100x80 image
behaves exactly like a full-image box read and stores `(0, 0, 100, 80)`. -/
theorem run_crop_ui_invalid_box_witness :
    invalidBoxFrame.cropValid = false
    ∧ (stepCrop 100 80 (initCropState 100 80) invalidBoxFrame =
        stepCrop 100 80 (initCropState 100 80)
          { invalidBoxFrame with
            cropValid := true, cropTlbr := (((0 : ℚ), (0 : ℚ)), ((1 : ℚ), (1 : ℚ))) }
       ∧ (invalidBoxFrame.cropChanged = true → 5 ≤ (100 : ℤ) → 5 ≤ (80 : ℤ) →
          (stepCrop 100 80 (initCropState 100 80) invalidBoxFrame).x1 = 0
          ∧ (stepCrop 100 80 (initCropState 100 80) invalidBoxFrame).y1 = 0
          ∧ (stepCrop 100 80 (initCropState 100 80) invalidBoxFrame).x2 = 100
          ∧ (stepCrop 100 80 (initCropState 100 80) invalidBoxFrame).y2 = 80)) :=
  ⟨rfl, run_crop_ui_invalid_box_substitution 100 80 (initCropState 100 80) invalidBoxFrame rfl⟩

/-- Amended claim C8: for every hover point and every zoom boundary `b` in
effect with `0 ≤ b`, `2*b ≤ W` and `2*b ≤ H`, the computed zoom window
satisfies `0 ≤ zoom_x1 ≤ zoom_x2 ≤ W + 1` and `0 ≤ zoom_y1 ≤ zoom_y2 ≤ H + 1`
(the half-open window only touches in-bounds pixel indices). -/
theorem zoom_window_bounds (W H b : ℤ) (xy : ℚ × ℚ) (hb : 0 ≤ b) (hW : 2 * b ≤ W)
    (hH : 2 * b ≤ H) :
    0 ≤ (computeZoomWindow W H b xy).1
    ∧ (computeZoomWindow W H b xy).1 ≤ (computeZoomWindow W H b xy).2.2.1
    ∧ (computeZoomWindow W H b xy).2.2.1 ≤ W + 1
    ∧ 0 ≤ (computeZoomWindow W H b xy).2.1
    ∧ (computeZoomWindow W H b xy).2.1 ≤ (computeZoomWindow W H b xy).2.2.2
    ∧ (computeZoomWindow W H b xy).2.2.2 ≤ H + 1 := by
  simp only [computeZoomWindow, npClip]
  refine ⟨?_, ?_, ?_, ?_, ?_, ?_⟩ <;> omega

/-- Witness for C8's amended bounds at `W = 400`, `H = 300`, `b = 100`,
hover point `(1/2, 1/2)`. -/
theorem zoom_window_bounds_witness :
    (0 : ℤ) ≤ 100 ∧ 2 * 100 ≤ (400 : ℤ) ∧ 2 * 100 ≤ (300 : ℤ)
    ∧ (0 ≤ (computeZoomWindow 400 300 100 ((1 : ℚ)/2, (1 : ℚ)/2)).1
       ∧ (computeZoomWindow 400 300 100 ((1 : ℚ)/2, (1 : ℚ)/2)).1 ≤
           (computeZoomWindow 400 300 100 ((1 : ℚ)/2, (1 : ℚ)/2)).2.2.1
       ∧ (computeZoomWindow 400 300 100 ((1 : ℚ)/2, (1 : ℚ)/2)).2.2.1 ≤ 400 + 1
       ∧ 0 ≤ (computeZoomWindow 400 300 100 ((1 : ℚ)/2, (1 : ℚ)/2)).2.1
       ∧ (computeZoomWindow 400 300 100 ((1 : ℚ)/2, (1 : ℚ)/2)).2.1 ≤
           (computeZoomWindow 400 300 100 ((1 : ℚ)/2, (1 : ℚ)/2)).2.2.2
       ∧ (computeZoomWindow 400 300 100 ((1 : ℚ)/2, (1 : ℚ)/2)).2.2.2 ≤ 300 + 1) :=
  ⟨by decide, by decide, by decide,
   zoom_window_bounds 400 300 100 ((1 : ℚ)/2, (1 : ℚ)/2) (by decide) (by decide) (by decide)⟩

/-- Counterexample for C8 as stated: with the initial boundary `b = 100` in
effect on a 150x150 image and the hover point at the top-left corner, the zoom
window computed inside `run_crop_ui` is `(-50, -50, 151, 151)`: `zoom_x1 < 0`
and `zoom_x2 > W`. -/
theorem zoom_window_bounds_cx :
    frameZoomWindow 150 150 (initCropState 150 150) zoomFrame = some (-50, -50, 151, 151)
    ∧ ¬((0 : ℤ) ≤ -50) ∧ ¬((151 : ℤ) ≤ 150) := by
  refine ⟨by with_unfolding_all rfl, by decide, by decide⟩

/-! ### Theorems about `read_prompts`, `load_initial_prompts` and `ReusableBaseImage` -/

/-- Claim C1: `read_prompts` returns `need_reencode = true` exactly when one of
the prompt overlays it read this frame reported a change (box, FG point,
BG point, or — only while the Hover tool is selected — hover; a clear press
itself wipes the overlays, which is a reported change), or the tool constraint
reported a selection change, or the clear button read as pressed. -/
theorem read_prompts_need_reencode_iff (s : PromptUIState) :
    (read_prompts s).1.need_reencode =
      (s.boxOlay.is_changed || s.fgptOlay.is_changed || s.bgptOlay.is_changed
        || (decide (s.tool.selected = Tool.hover) && s.hoverOlay.is_changed)
        || s.tool.is_changed || s.clearPending) := by
  obtain ⟨⟨tc, tsel⟩, cp, ⟨bc, bl⟩, ⟨fc, fl⟩, ⟨gc, gl⟩, ⟨hc, hk, he⟩⟩ := s
  cases tsel <;> cases tc <;> cases cp <;> cases bc <;> cases fc <;> cases gc <;> cases hc <;> rfl

/-- Claim C10: `load_initial_prompts` given a non-dict argument returns without
consuming the clear button's pending press and without touching any overlay
state; given a dict it consumes the pending clear press and appends the listed
boxes and FG/BG points to the overlays, leaving the tool constraint and hover
overlay alone. -/
theorem load_initial_prompts_effects (s : PromptUIState) :
    load_initial_prompts s PyArg.nondict = s
    ∧ ∀ d : PromptsDict,
        (load_initial_prompts s (PyArg.dict d)).clearPending = false
        ∧ (load_initial_prompts s (PyArg.dict d)).boxOlay.boxes = s.boxOlay.boxes ++ d.boxes
        ∧ (load_initial_prompts s (PyArg.dict d)).fgptOlay.points
            = s.fgptOlay.points ++ d.fg_points
        ∧ (load_initial_prompts s (PyArg.dict d)).bgptOlay.points
            = s.bgptOlay.points ++ d.bg_points
        ∧ (load_initial_prompts s (PyArg.dict d)).tool = s.tool
        ∧ (load_initial_prompts s (PyArg.dict d)).hoverOlay = s.hoverOlay :=
  ⟨rfl, fun _ => ⟨rfl, rfl, rfl, rfl, rfl, rfl⟩⟩

/-- Claim C9 (code bug): `ReusableBaseImage.regenerate` never updates the
stored previous size (`_prev_h`/`_prev_w` keep the initial image's size because
the source assigns local variables instead), so after `regenerate (50, 60)` on
a 100x200 image an immediately repeated call with `(50, 60)` performs a resize
again, and a later call with the initial size `(100, 200)` returns the stale
50x60 cached image without resizing. -/
theorem reusable_base_image_stale_cache :
    (((ReusableBaseImage.init (100, 200)).regenerate (50, 60)).2.2 = true)
    ∧ ((((ReusableBaseImage.init (100, 200)).regenerate (50, 60)).1.regenerate (50, 60)).2.2
        = true)
    ∧ (((ReusableBaseImage.init (100, 200)).regenerate (50, 60)).1.prev_h = 100
       ∧ ((ReusableBaseImage.init (100, 200)).regenerate (50, 60)).1.prev_w = 200)
    ∧ ((((ReusableBaseImage.init (100, 200)).regenerate (50, 60)).1.regenerate (100, 200)).2.1
          = (50, 60)
       ∧ (((ReusableBaseImage.init (100, 200)).regenerate (50, 60)).1.regenerate (100, 200)).2.2
          = false) := by
  decide

/-- Claim C3: when the Hover tool is selected and the hover overlay reports an
in-region click at `p`, `read_prompts` switches the tool constraint to the
FG-point tool and appends `p` to the FG overlay's persistent points, so `p`
appears in the FG list of the next read; and this is the only cross-overlay
write: the box and BG overlays' contents are never modified by input (only by
a clear press), and without a hover click the FG overlay's contents are not
modified either. -/
theorem read_prompts_hover_promotion (s : PromptUIState) :
    (s.tool.selected = Tool.hover → s.hoverOlay.is_clicked = true →
      s.hoverOlay.event.is_in_region = true →
      (read_prompts s).2.tool.selected = Tool.fgpt
      ∧ (read_prompts s).2.fgptOlay.points =
          (if s.clearPending then [] else s.fgptOlay.points) ++ [s.hoverOlay.event.xy_norm]
      ∧ s.hoverOlay.event.xy_norm ∈ (read_prompts (read_prompts s).2).1.fg)
    ∧ ((read_prompts s).2.boxOlay.boxes = if s.clearPending then [] else s.boxOlay.boxes)
    ∧ ((read_prompts s).2.bgptOlay.points = if s.clearPending then [] else s.bgptOlay.points)
    ∧ (¬(s.tool.selected = Tool.hover ∧ s.hoverOlay.is_clicked = true) →
        (read_prompts s).2.fgptOlay.points = if s.clearPending then [] else s.fgptOlay.points) := by
  obtain ⟨⟨tc, tsel⟩, cp, ⟨bc, bl⟩, ⟨fc, fl⟩, ⟨gc, gl⟩, ⟨hc, hk, ⟨hxy, hin⟩⟩⟩ := s
  refine ⟨?_, ?_, ?_, ?_⟩
  · intro h1 h2 h3
    simp only at h1 h2 h3
    subst h1
    subst h2
    subst h3
    cases cp <;> cases fc <;>
      refine ⟨?_, ?_, ?_⟩ <;>
        simp [read_prompts, PointSelectState.clear, PointSelectState.add_points,
          ToolConstraintState.change_to, List.mem_append]
  · cases tsel <;> cases cp <;> rfl
  · cases tsel <;> cases cp <;> rfl
  · intro hno
    simp only [not_and] at hno
    cases tsel <;> cases cp <;> cases hk <;>
      first
      | rfl
      | (exact absurd (hno rfl) (by simp))

/-- Witness for C3: with the Hover tool selected and an in-region click at
`(3/10, 2/5)`, the tool switches to FG-point, the point is stored in the FG
overlay, and it appears in the next read's FG list. -/
theorem read_prompts_hover_promotion_witness :
    hoverClickState.tool.selected = Tool.hover
    ∧ hoverClickState.hoverOlay.is_clicked = true
    ∧ hoverClickState.hoverOlay.event.is_in_region = true
    ∧ (read_prompts hoverClickState).2.tool.selected = Tool.fgpt
    ∧ (read_prompts hoverClickState).2.fgptOlay.points =
        (if hoverClickState.clearPending then [] else hoverClickState.fgptOlay.points)
          ++ [hoverClickState.hoverOlay.event.xy_norm]
    ∧ hoverClickState.hoverOlay.event.xy_norm ∈
        (read_prompts (read_prompts hoverClickState).2).1.fg := by
  have h := (read_prompts_hover_promotion hoverClickState).1 rfl rfl rfl
  exact ⟨rfl, rfl, rfl, h.1, h.2.1, h.2.2⟩

/-- Claim C4: if the FG overlay reported a change this frame and the combined
count of reported prompts (FG points including any folded-in hover point,
boxes, BG points) is zero, `read_prompts` changes the tool constraint to Hover
before returning; and when the FG overlay reported no change (e.g. only a box
or BG point was removed), no such revert happens — the selected tool is left
as-is apart from the hover-click promotion. -/
theorem read_prompts_auto_revert (s : PromptUIState) :
    ((s.clearPending || s.fgptOlay.is_changed) = true →
      ((if s.clearPending then [] else s.fgptOlay.points) ++
          (if s.tool.selected = Tool.hover ∧ s.hoverOlay.event.is_in_region = true
            then [s.hoverOlay.event.xy_norm] else [])).length
        + (if s.clearPending then [] else s.boxOlay.boxes).length
        + (if s.clearPending then ([] : List XYNorm) else s.bgptOlay.points).length = 0 →
      (read_prompts s).2.tool.selected = Tool.hover)
    ∧ ((s.clearPending || s.fgptOlay.is_changed) = false →
        (read_prompts s).2.tool.selected =
          (if s.tool.selected = Tool.hover ∧ s.hoverOlay.is_clicked = true then Tool.fgpt
           else s.tool.selected)) := by
  obtain ⟨⟨tc, tsel⟩, cp, ⟨bc, bl⟩, ⟨fc, fl⟩, ⟨gc, gl⟩, ⟨hc, hk, ⟨hxy, hin⟩⟩⟩ := s
  constructor
  · intro hfg hcount
    cases cp
    · simp only [Bool.false_or] at hfg
      subst hfg
      cases tsel <;> cases hin <;> cases hk <;>
        simp_all [read_prompts, PointSelectState.clear, PointSelectState.add_points,
          BoxSelectState.clear, ToolConstraintState.change_to]
    · cases tsel <;> cases hin <;> cases hk <;>
        simp_all [read_prompts, PointSelectState.clear, PointSelectState.add_points,
          BoxSelectState.clear, ToolConstraintState.change_to]
  · intro hfg
    rcases Bool.or_eq_false_iff.mp hfg with ⟨hcp, hfc⟩
    subst hcp
    subst hfc
    cases tsel <;> cases hk <;> rfl

/-- Witness for C4: with one FG point just removed (FG overlay reports a change
with an empty list) and no other prompts, the selected tool becomes Hover. -/
theorem read_prompts_auto_revert_witness :
    (fgRemovedState.clearPending || fgRemovedState.fgptOlay.is_changed) = true
    ∧ (read_prompts fgRemovedState).2.tool.selected = Tool.hover := by
  refine ⟨rfl, (read_prompts_auto_revert fgRemovedState).1 rfl ?_⟩
  decide
